import Mathlib

/-!
Shallow embedding of the `lmdbsync` package (exp/lmdbsync/lmdbsync.go):
a synchronization wrapper around an LMDB environment handle.

The storage engine itself (package `lmdb`) is an external black box; engine
calls are modelled by oracles supplying the engine's result — every engine
call result appears as an explicit `Option Err` (or `Nat × Option Err`)
argument.  `none` models Go's `nil` error.

The admission lock (`txnlock sync.RWMutex`) is modelled two ways:
* for transaction execution, each attempt emits a trace of lock events
  (`Ev`), so that which lock path an attempt takes is observable;
* for `SetMapSize`, a lock-state machine (`LockSt`) in which acquiring the
  write lock when it is not free returns `none` (Go's non-reentrant
  `sync.RWMutex` blocks such an acquisition forever; with no other thread to
  release the lock the computation is stuck, i.e. a deadlock).
-/

set_option autoImplicit false
set_option linter.unusedVariables false

namespace Lmdbsync

/-- The lmdb.NoLock flag bit (MDB_NOLOCK), part of the external engine surface. -/
def NoLock : Nat := 0x400000

/-- The lmdb.Readonly flag bit (MDB_RDONLY), part of the external engine surface. -/
def Readonly : Nat := 0x20000

/-- The errno EINVAL, returned by the engine flags query on a not-yet-opened env. -/
def EINVAL : Nat := 22

/-- Go error values relevant to lmdbsync: the retry sentinel `RetryTxn`, the
engine's distinguished `lmdb.MapResized` and `lmdb.MapFull` errors, errno-backed
engine errors, and arbitrary other errors.  A Go `error` is `Option Err`,
with `none` for `nil`. -/
inductive Err : Type where
  | retryTxn : Err
  | mapResized : Err
  | mapFull : Err
  | errno : Nat → Err
  | other : Nat → Err
  deriving DecidableEq, Repr

/-- Modelled from the spec: keys of the context bag.  `envBagKey n` embeds the
package-private `type envBagKey int` of lmdbsync.go; `other` covers keys of any
other type that callers might use. -/
inductive BagKey : Type where
  | envBagKey : Int → BagKey
  | other : Nat → BagKey
  deriving DecidableEq, Repr

/-- Modelled from the spec: values stored in a context bag.  `envRef id` is a
`*Env` wrapper reference (Go pointer identity modelled by a numeric id);
`other` is a value of any non-`*Env` type. -/
inductive BagValue : Type where
  | envRef : Nat → BagValue
  | other : Nat → BagValue
  deriving DecidableEq, Repr

/-- Modelled from the spec: the package's context Bag (its source file is not
under src/): a persistent, immutable association from key to value, built as a
parent pointer plus a single key/value binding, with lookups falling through
to the parent. -/
inductive Bag : Type where
  | background : Bag
  | withKV : Bag → BagKey → BagValue → Bag
  deriving DecidableEq, Repr

/-- Modelled from the spec: Bag lookup; keys absent from a derived bag fall
through to the parent, and the background bag holds nothing. -/
def Bag.Value : Bag → BagKey → Option BagValue
  | .background, _ => none
  | .withKV p k v, k' => if k' = k then some v else p.Value k'

/-- Modelled from the spec: the fresh root bag shared by all calls. -/
def Background : Bag := .background

/-- Modelled from the spec: `BagWith(b, k, v)` derives a new bag binding `k`
to `v` without mutating `b`. -/
def BagWith (b : Bag) (k : BagKey) (v : BagValue) : Bag := .withKV b k v

/-- `BagEnv(b)`: look up the private key `envBagKey(0)` and type-assert the
result to `*Env` with the comma-ok form, yielding nil (`none`) on a missing
key or a value of the wrong type (lmdbsync.go lines 65-68). -/
def BagEnv (b : Bag) : Option Nat :=
  match b.Value (.envBagKey 0) with
  | some (.envRef id) => some id
  | _ => none

/-- `bagWithEnv(b, env)`: tag `b` with the wrapper `env` under the private
key `envBagKey(0)` (lmdbsync.go lines 70-72). -/
def bagWithEnv (b : Bag) (envId : Nat) : Bag :=
  BagWith b (.envBagKey 0) (.envRef envId)

/-- A Handler maps `(context bag, error)` to `(context bag, error)`
(interface `Handler.HandleTxnErr`). -/
abbrev Handler : Type := Bag → Option Err → Bag × Option Err

/-- A HandlerChain is an ordered list of Handlers. -/
abbrev HandlerChain : Type := List Handler

/-- Modelled from the spec: `HandlerChain.HandleTxnErr` (its source file is
not under src/) invokes the chain's handlers sequentially, threading the bag
and error through. -/
def HandlerChain.HandleTxnErr (c : HandlerChain) (b : Bag) (e : Option Err) :
    Bag × Option Err :=
  c.foldl (fun p h => h p.1 p.2) (b, e)

/-- Modelled from the spec: `HandlerChain.Append` (its source file is not
under src/) produces a new chain extending the receiver, never mutating it. -/
def HandlerChain.Append (c : HandlerChain) (h : Handler) : HandlerChain :=
  c ++ [h]

/-- The Env wrapper's own state: `Handlers`, `bag` and `noLock` mirror the Go
struct fields; `id` stands for the wrapper's pointer identity (`*Env`), which
`bagWithEnv` stores in context bags.  The engine handle is external and the
`txnlock` mutex is modelled by the execution traces below, not stored here. -/
structure Env : Type where
  id : Nat
  Handlers : HandlerChain
  bag : Bag
  noLock : Bool

/-- `IsErrnoSys(err, n)`: does the error wrap exactly the OS errno `n`? -/
def IsErrnoSys (e : Option Err) (n : Nat) : Bool :=
  e == some (.errno n)

/-- `NewEnv(env, h...)` (lmdbsync.go lines 98-124): query the engine's flags;
an EINVAL failure (env not yet opened) is discarded, any other failure is
returned; otherwise `noLock` is set from the NoLock bit of the queried flags.
`flagsQuery` is the engine `Flags()` oracle result `(flags, err)`; on failure
the engine returns flags 0. -/
def NewEnv (id : Nat) (flagsQuery : Nat × Option Err) (h : HandlerChain) :
    Except Err Env :=
  let flags := flagsQuery.1
  let err := if IsErrnoSys flagsQuery.2 EINVAL then none else flagsQuery.2
  match err with
  | some e => .error e
  | none =>
      .ok { id := id
            Handlers := h
            bag := Background
            noLock := flags &&& NoLock != 0 }

/-- `Env.Open` (lmdbsync.go lines 128-140): delegate to the engine; on engine
failure return the error with no local update; on success set `noLock` if the
NoLock bit is in `flags`.  `engineErr` is the engine call's result. -/
def Env.Open (r : Env) (flags : Nat) (engineErr : Option Err) : Env × Option Err :=
  match engineErr with
  | some e => (r, some e)
  | none =>
      if flags &&& NoLock != 0 then ({ r with noLock := true }, none)
      else (r, none)

/-- `Env.SetFlags` (lmdbsync.go lines 144-156): delegate to the engine; on
failure no local update; on success set `noLock` if the NoLock bit is set. -/
def Env.SetFlags (r : Env) (flags : Nat) (engineErr : Option Err) : Env × Option Err :=
  match engineErr with
  | some e => (r, some e)
  | none =>
      if flags &&& NoLock != 0 then ({ r with noLock := true }, none)
      else (r, none)

/-- `Env.UnsetFlags` (lmdbsync.go lines 160-172): delegate to the engine; on
failure no local update; on success clear `noLock` if the NoLock bit is set. -/
def Env.UnsetFlags (r : Env) (flags : Nat) (engineErr : Option Err) : Env × Option Err :=
  match engineErr with
  | some e => (r, some e)
  | none =>
      if flags &&& NoLock != 0 then ({ r with noLock := false }, none)
      else (r, none)

/-! ### The admission lock as a state machine (for `SetMapSize`) -/

/-- State of the `txnlock` readers-writer mutex. -/
inductive LockSt : Type where
  | free : LockSt
  | rlocked : Nat → LockSt
  | wlocked : LockSt
  deriving DecidableEq, Repr

/-- Acquire the write lock.  `sync.RWMutex` is not reentrant: with no other
thread around to release the lock, acquisition from any non-free state blocks
forever, modelled as `none`. -/
def lockW : LockSt → Option LockSt
  | .free => some .wlocked
  | _ => none

/-- Release the write lock (releasing a lock not write-held is a fatal
runtime error in Go, modelled as `none`). -/
def unlockW : LockSt → Option LockSt
  | .wlocked => some .free
  | _ => none

/-- Machine state for a `SetMapSize` execution: the admission lock plus a
counter of engine resize-primitive invocations. -/
structure MState : Type where
  lock : LockSt
  resizeCalls : Nat
  deriving DecidableEq, Repr

/-- The unexported `setMapSize(size, delay)` (lmdbsync.go lines 183-194):
acquire `txnlock` exclusively, sleep for `delay` if positive (no effect in
this model beyond holding the lock), invoke the engine resize primitive,
release, and return the primitive's result.  `engineErr` is the engine
`SetMapSize(size)` oracle result. -/
def setMapSize (size : Nat) (delay : Nat) (engineErr : Option Err) (s : MState) :
    Option (Option Err × MState) :=
  match lockW s.lock with
  | none => none
  | some l1 =>
      let _ := delay > 0
      let s1 : MState := { lock := l1, resizeCalls := s.resizeCalls + 1 }
      match unlockW s1.lock with
      | none => none
      | some l2 => some (engineErr, { s1 with lock := l2 })

/-- The public `SetMapSize(size)` (lmdbsync.go lines 176-181): acquire
`txnlock` exclusively, call `setMapSize(size, 0)`, release, and return its
result. -/
def SetMapSize (size : Nat) (engineErr : Option Err) (s : MState) :
    Option (Option Err × MState) :=
  match lockW s.lock with
  | none => none
  | some l1 =>
      match setMapSize size 0 engineErr { s with lock := l1 } with
      | none => none
      | some (e, s2) =>
          match unlockW s2.lock with
          | none => none
          | some l3 => some (e, { s2 with lock := l3 })

/-! ### Transaction execution -/

/-- Observable events of one transaction attempt: shared (reader) and
exclusive (writer) acquisitions/releases of `txnlock`, and the execution of
the engine transaction body between them. -/
inductive Ev : Type where
  | acqR : Ev
  | relR : Ev
  | acqW : Ev
  | relW : Ev
  | body : Ev
  deriving DecidableEq, Repr

/-- `Env.run(readonly, fn)` (lmdbsync.go lines 266-278): when `noLock` is set
and the attempt is a write, hold `txnlock` exclusively around the engine body;
otherwise hold it in shared mode.  Returns the attempt's event trace together
with the body's result (`fnErr`, the engine-body oracle result). -/
def run (noLock : Bool) (readonly : Bool) (fnErr : Option Err) :
    List Ev × Option Err :=
  if noLock && !readonly then ([.acqW, .body, .relW], fnErr)
  else ([.acqR, .body, .relR], fnErr)

/-- The retry loop of `Env.runHandler` (lmdbsync.go lines 256-265), unrolled
with explicit attempt indices and fuel.  At attempt `i` the loop samples the
wrapper's `noLock` field (`nseq i` — the field may be changed between attempts
by concurrent `SetFlags`/`UnsetFlags`, so the sampled values form a sequence),
runs the attempt, passes its result through the handler `h` threading the bag,
and repeats exactly when `h` returns the `RetryTxn` sentinel.  Returns
`(full event trace, final error, total number of attempts)`; `none` means the
fuel ran out before the loop returned. -/
def runHandlerLoop (nseq : Nat → Bool) (readonly : Bool) (att : Nat → Option Err)
    (h : Handler) (b : Bag) (i : Nat) : Nat → Option (List Ev × Option Err × Nat)
  | 0 => none
  | fuel + 1 =>
      let p := run (nseq i) readonly (att i)
      let q := h b p.2
      if q.2 = some .retryTxn then
        match runHandlerLoop nseq readonly att h q.1 (i + 1) fuel with
        | none => none
        | some (tr2, res, n) => some (p.1 ++ tr2, res, n)
      else
        some (p.1, q.2, i + 1)

/-- `Env.runHandler(readonly, fn, h)` (lmdbsync.go lines 256-265): derive the
per-call bag by tagging the wrapper's background bag with the wrapper itself,
then run the retry loop.  `att i` is the engine-body oracle result of the
`i`-th attempt and `nseq i` the `noLock` value sampled at the `i`-th attempt. -/
def Env.runHandler (r : Env) (readonly : Bool) (nseq : Nat → Bool)
    (att : Nat → Option Err) (h : Handler) (fuel : Nat) :
    Option (List Ev × Option Err × Nat) :=
  runHandlerLoop nseq readonly att h (bagWithEnv r.bag r.id) 0 fuel

/-- `Env.RunTxn(flags, op)` (lmdbsync.go lines 204-207): read-only-ness is
derived from the `Readonly` bit of `flags`; the chain is `r.Handlers`. -/
def Env.RunTxn (r : Env) (flags : Nat) (nseq : Nat → Bool)
    (att : Nat → Option Err) (fuel : Nat) : Option (List Ev × Option Err × Nat) :=
  r.runHandler (flags &&& Readonly != 0) nseq att r.Handlers.HandleTxnErr fuel

/-- `Env.View(op)` (lmdbsync.go lines 217-219): always read-only. -/
def Env.View (r : Env) (nseq : Nat → Bool) (att : Nat → Option Err) (fuel : Nat) :
    Option (List Ev × Option Err × Nat) :=
  r.runHandler true nseq att r.Handlers.HandleTxnErr fuel

/-- `Env.Update(op)` (lmdbsync.go lines 230-232): always a write. -/
def Env.Update (r : Env) (nseq : Nat → Bool) (att : Nat → Option Err) (fuel : Nat) :
    Option (List Ev × Option Err × Nat) :=
  r.runHandler false nseq att r.Handlers.HandleTxnErr fuel

/-- `Env.UpdateLocked(op)` (lmdbsync.go lines 243-245): always a write. -/
def Env.UpdateLocked (r : Env) (nseq : Nat → Bool) (att : Nat → Option Err) (fuel : Nat) :
    Option (List Ev × Option Err × Nat) :=
  r.runHandler false nseq att r.Handlers.HandleTxnErr fuel

/-- Modelled from the spec: the Txn Runner returned by `WithHandler` (its
source file is not under src/) pairs the wrapper with an extended chain and
holds no other state. -/
structure HandlerRunner : Type where
  env : Env
  h : HandlerChain

/-- `Env.WithHandler(h)` (lmdbsync.go lines 249-254): return a runner bound
to this wrapper and to `r.Handlers.Append(h)`; the wrapper is not changed. -/
def Env.WithHandler (r : Env) (h : Handler) : HandlerRunner :=
  { env := r, h := r.Handlers.Append h }

/-- Modelled from the spec: the runner's `Update` (its source file is not
under src/) executes against the same wrapper, substituting its own chain. -/
def HandlerRunner.Update (hr : HandlerRunner) (nseq : Nat → Bool)
    (att : Nat → Option Err) (fuel : Nat) : Option (List Ev × Option Err × Nat) :=
  hr.env.runHandler false nseq att hr.h.HandleTxnErr fuel

/-- Modelled from the spec: the baseline resize handler converts the engine's
`MapResized` error into the `RetryTxn` sentinel (after adopting the new map
size through the delayed-resize path) and leaves every other result alone
(its source file is not under src/). -/
def mapResizedHandler : Handler := fun b e =>
  (b, if e = some .mapResized then some .retryTxn else e)

/-! ### Chain-output sequence of the retry loop -/

/-- The sequence of handler-chain outputs produced by the retry loop when the
first attempt has index `i` and incoming bag `b`: entry `j` is the `(bag,
error)` pair the chain returns after attempt `i + j`, with bags threaded from
one chain invocation to the next. -/
def chainSeqFrom (h : Handler) (att : Nat → Option Err) (i : Nat) (b : Bag) :
    Nat → Bag × Option Err
  | 0 => h b (att i)
  | j + 1 => h (chainSeqFrom h att i b j).1 (att (i + j + 1))

/-- The lock-event bracket of one attempt: exclusive when `excl`, shared
otherwise. -/
def lockBracket (excl : Bool) : List Ev :=
  if excl then [.acqW, .body, .relW] else [.acqR, .body, .relR]

/-- The admission-mode rule of `Env.run`: an attempt is exclusive exactly
when the wrapper is in NoLock mode and the attempt is a write. -/
def exclusiveMode (noLock : Bool) (readonly : Bool) : Bool :=
  noLock && !readonly

/-- The event trace of `k` consecutive attempts starting at attempt index
`i`: each attempt `i + j` is one lock bracket whose mode is the admission
rule evaluated at the `noLock` value sampled at that attempt. -/
def attemptTraces (nseq : Nat → Bool) (ro : Bool) (i : Nat) : Nat → List Ev
  | 0 => []
  | k + 1 => lockBracket (exclusiveMode (nseq i) ro) ++ attemptTraces nseq ro (i + 1) k

/-! ### Helper lemmas -/

theorem run_eq (nl ro : Bool) (e : Option Err) :
    run nl ro e = (lockBracket (exclusiveMode nl ro), e) := by
  simp only [run, lockBracket, exclusiveMode]
  split <;> simp_all

theorem chainSeqFrom_shift (h : Handler) (att : Nat → Option Err) (i : Nat)
    (b : Bag) (j : Nat) :
    chainSeqFrom h att (i + 1) (h b (att i)).1 j = chainSeqFrom h att i b (j + 1) := by
  induction j with
  | zero => rfl
  | succ j ih =>
      rw [chainSeqFrom, chainSeqFrom, ih]
      congr 2
      omega

theorem chainSeqFrom_apply (h : Handler) (att : Nat → Option Err) (i : Nat)
    (b : Bag) (j : Nat) :
    ∃ b', chainSeqFrom h att i b j = h b' (att (i + j)) := by
  cases j with
  | zero => exact ⟨b, rfl⟩
  | succ j => exact ⟨(chainSeqFrom h att i b j).1, rfl⟩

theorem runHandlerLoop_spec (h : Handler) (att : Nat → Option Err)
    (nseq : Nat → Bool) (ro : Bool) :
    ∀ (N i : Nat) (b : Bag) (fuel : Nat),
      (∀ j, j < N → (chainSeqFrom h att i b j).2 = some .retryTxn) →
      (chainSeqFrom h att i b N).2 ≠ some .retryTxn →
      N < fuel →
      runHandlerLoop nseq ro att h b i fuel =
        some (attemptTraces nseq ro i (N + 1), (chainSeqFrom h att i b N).2, i + N + 1) := by
  intro N
  induction N with
  | zero =>
      intro i b fuel hret hterm hfuel
      match fuel, hfuel with
      | f + 1, _ =>
        have hterm0 : (h b (att i)).2 ≠ some .retryTxn := hterm
        simp only [runHandlerLoop, run_eq]
        rw [if_neg hterm0]
        simp [attemptTraces, chainSeqFrom]
  | succ N ih =>
      intro i b fuel hret hterm hfuel
      match fuel, hfuel with
      | f + 1, hfuel =>
        have h0 : (h b (att i)).2 = some .retryTxn := hret 0 (Nat.succ_pos N)
        simp only [runHandlerLoop, run_eq]
        rw [if_pos h0]
        have hret' : ∀ j, j < N →
            (chainSeqFrom h att (i + 1) (h b (att i)).1 j).2 = some .retryTxn := by
          intro j hj
          rw [chainSeqFrom_shift]
          exact hret (j + 1) (Nat.succ_lt_succ hj)
        have hterm' : (chainSeqFrom h att (i + 1) (h b (att i)).1 N).2 ≠ some .retryTxn := by
          rw [chainSeqFrom_shift]
          exact hterm
        have hfuel' : N < f := Nat.lt_of_succ_lt_succ hfuel
        rw [ih (i + 1) (h b (att i)).1 f hret' hterm' hfuel']
        rw [chainSeqFrom_shift]
        simp only [attemptTraces]
        have hcount : i + 1 + N + 1 = i + (N + 1) + 1 := by omega
        rw [hcount]

theorem runHandlerLoop_trace (nseq : Nat → Bool) (ro : Bool)
    (att : Nat → Option Err) (h : Handler) :
    ∀ (fuel i : Nat) (b : Bag) (tr : List Ev) (res : Option Err) (n : Nat),
      runHandlerLoop nseq ro att h b i fuel = some (tr, res, n) →
      i < n ∧ tr = attemptTraces nseq ro i (n - i) := by
  intro fuel
  induction fuel with
  | zero => intro i b tr res n hrun; exact absurd hrun (by simp [runHandlerLoop])
  | succ f ih =>
      intro i b tr res n hrun
      simp only [runHandlerLoop, run_eq] at hrun
      by_cases hq : (h b (att i)).2 = some .retryTxn
      · rw [if_pos hq] at hrun
        cases hrec : runHandlerLoop nseq ro att h (h b (att i)).1 (i + 1) f with
        | none => rw [hrec] at hrun; exact absurd hrun (by simp)
        | some v =>
            obtain ⟨tr2, res2, n2⟩ := v
            rw [hrec] at hrun
            simp only [Option.some.injEq, Prod.mk.injEq] at hrun
            obtain ⟨htr, hres, hn⟩ := hrun
            obtain ⟨hlt, htr2⟩ := ih (i + 1) (h b (att i)).1 tr2 res2 n2 hrec
            subst hn
            refine ⟨by omega, ?_⟩
            rw [← htr, htr2]
            have hsub : n2 - i = (n2 - (i + 1)) + 1 := by omega
            rw [hsub, attemptTraces]
      · rw [if_neg hq] at hrun
        simp only [Option.some.injEq, Prod.mk.injEq] at hrun
        obtain ⟨htr, hres, hn⟩ := hrun
        subst hn
        refine ⟨by omega, ?_⟩
        rw [← htr]
        have hsub : i + 1 - i = 1 := by omega
        rw [hsub]
        simp [attemptTraces]

/-! ### Claim theorems -/

/-- Claim C1 — refuted by the code: the public `SetMapSize` acquires the
non-reentrant `txnlock` exclusively and then calls the unexported
`setMapSize`, which acquires it exclusively again, so from every lock state
the call blocks forever (`none`) and the engine resize primitive is never
invoked; the unexported `setMapSize(size, 0)` alone performs exactly the
claimed protocol: acquire exclusively, invoke the engine primitive exactly
once, release, and return the primitive's result. -/
theorem C1_public_setmapsize_deadlocks (size : Nat) (e : Option Err) (s : MState) (c : Nat) :
    SetMapSize size e s = none ∧
    setMapSize size 0 e { lock := .free, resizeCalls := c } =
      some (e, { lock := .free, resizeCalls := c + 1 }) := by
  constructor
  · cases s with
    | mk l k => cases l <;> simp [SetMapSize, setMapSize, lockW, unlockW]
  · rfl

/-- Claim C2: every attempt of `RunTxn`/`View`/`Update`/`UpdateLocked` holds
the admission lock around the engine body for its whole duration: the trace
of a run with `n` attempts is exactly `n` lock brackets, the bracket of
attempt `i` being exclusive precisely when the `noLock` flag sampled at
attempt `i` is set and the attempt is a write (`RunTxn` derives read-only-ness
from the `Readonly` bit of its flags); with the flag unset every attempt is
shared, with it set writes are exclusive and reads shared. -/
theorem C2_admission_mode (r : Env) (flags fuel : Nat) (nseq : Nat → Bool)
    (att : Nat → Option Err) (tr : List Ev) (res : Option Err) (n : Nat) :
    (r.RunTxn flags nseq att fuel = some (tr, res, n) →
       tr = attemptTraces nseq (flags &&& Readonly != 0) 0 n) ∧
    (r.View nseq att fuel = some (tr, res, n) → tr = attemptTraces nseq true 0 n) ∧
    (r.Update nseq att fuel = some (tr, res, n) → tr = attemptTraces nseq false 0 n) ∧
    (r.UpdateLocked nseq att fuel = some (tr, res, n) → tr = attemptTraces nseq false 0 n) ∧
    (∀ i k ro, attemptTraces nseq ro i (k + 1) =
       lockBracket (exclusiveMode (nseq i) ro) ++ attemptTraces nseq ro (i + 1) k) ∧
    (∀ ro, exclusiveMode false ro = false) ∧
    exclusiveMode true false = true ∧ exclusiveMode true true = false := by
  refine ⟨?_, ?_, ?_, ?_, fun i k ro => rfl, fun ro => rfl, rfl, rfl⟩ <;>
  · intro hrun
    obtain ⟨hlt, htr⟩ := runHandlerLoop_trace nseq _ att _ fuel 0 _ tr res n hrun
    simpa using htr

/-- Concrete run discharging C2's hypotheses: a single shared-mode `View`
attempt on a NoLock-mode wrapper. -/
theorem C2_admission_mode_witness :
    [Ev.acqR, Ev.body, Ev.relR] = attemptTraces (fun _ => true) true 0 1 :=
  (C2_admission_mode { id := 0, Handlers := [], bag := Background, noLock := true }
      0 1 (fun _ => true) (fun _ => none) [Ev.acqR, Ev.body, Ev.relR] none 1).2.1 rfl

/-- Claim C3: each of the four transaction operations returns exactly the
first handler-chain output differing from the `RetryTxn` sentinel: if the
chain outputs of the retry loop are the sentinel for the first `N` attempts
and the `(N+1)`-st chain output is anything else, the operation performs
exactly `N + 1` attempts and returns that `(N+1)`-st output unchanged. -/
theorem C3_first_nonretry_returned (r : Env) (flags fuel N : Nat) (nseq : Nat → Bool)
    (att : Nat → Option Err)
    (hret : ∀ j, j < N →
       (chainSeqFrom r.Handlers.HandleTxnErr att 0 (bagWithEnv r.bag r.id) j).2 =
         some .retryTxn)
    (hterm : (chainSeqFrom r.Handlers.HandleTxnErr att 0 (bagWithEnv r.bag r.id) N).2 ≠
       some .retryTxn)
    (hfuel : N < fuel) :
    r.RunTxn flags nseq att fuel =
      some (attemptTraces nseq (flags &&& Readonly != 0) 0 (N + 1),
        (chainSeqFrom r.Handlers.HandleTxnErr att 0 (bagWithEnv r.bag r.id) N).2, N + 1) ∧
    r.View nseq att fuel =
      some (attemptTraces nseq true 0 (N + 1),
        (chainSeqFrom r.Handlers.HandleTxnErr att 0 (bagWithEnv r.bag r.id) N).2, N + 1) ∧
    r.Update nseq att fuel =
      some (attemptTraces nseq false 0 (N + 1),
        (chainSeqFrom r.Handlers.HandleTxnErr att 0 (bagWithEnv r.bag r.id) N).2, N + 1) ∧
    r.UpdateLocked nseq att fuel =
      some (attemptTraces nseq false 0 (N + 1),
        (chainSeqFrom r.Handlers.HandleTxnErr att 0 (bagWithEnv r.bag r.id) N).2, N + 1) := by
  refine ⟨?_, ?_, ?_, ?_⟩ <;>
  · simpa [Env.RunTxn, Env.View, Env.Update, Env.UpdateLocked, Env.runHandler] using
      runHandlerLoop_spec r.Handlers.HandleTxnErr att nseq _ N 0
        (bagWithEnv r.bag r.id) fuel hret hterm hfuel

/-- Concrete run discharging C3's hypotheses: a chain holding the baseline
resize handler turns a first `MapResized` attempt into a retry, and the
second attempt's `MapFull` — which the chain does not convert — is returned
to the caller unchanged after exactly two attempts. -/
theorem C3_first_nonretry_returned_witness :
    Env.View { id := 7, Handlers := [mapResizedHandler], bag := Background, noLock := false }
        (fun _ => false) (fun i => if i = 0 then some .mapResized else some .mapFull) 2 =
      some ([Ev.acqR, Ev.body, Ev.relR, Ev.acqR, Ev.body, Ev.relR], some .mapFull, 2) :=
  (C3_first_nonretry_returned
      { id := 7, Handlers := [mapResizedHandler], bag := Background, noLock := false }
      0 2 1 (fun _ => false) (fun i => if i = 0 then some .mapResized else some .mapFull)
      (fun j hj => by
        have hj0 : j = 0 := by omega
        subst hj0
        rfl)
      (by decide) (by omega)).2.1

/-- Claim C4: if the transaction body yields the `MapResized` error on its
first `N - 1` invocations and succeeds on the `N`-th, and the handler chain
converts `MapResized` to the retry sentinel and passes success through (as
the baseline resize handler does), then `Update` returns no error and the
body is invoked exactly `N` times. -/
theorem C4_mapresized_retry (r : Env) (N fuel : Nat) (nseq : Nat → Bool)
    (hN : 1 ≤ N) (hfuel : N ≤ fuel)
    (hconv : ∀ b, (r.Handlers.HandleTxnErr b (some .mapResized)).2 = some .retryTxn)
    (hpass : ∀ b, (r.Handlers.HandleTxnErr b none).2 = none) :
    r.Update nseq (fun i => if i + 1 < N then some .mapResized else none) fuel =
      some (attemptTraces nseq false 0 N, none, N) := by
  obtain ⟨M, rfl⟩ : ∃ M, N = M + 1 := ⟨N - 1, by omega⟩
  have hret : ∀ j, j < M →
      (chainSeqFrom r.Handlers.HandleTxnErr
        (fun i => if i + 1 < M + 1 then some .mapResized else none) 0
        (bagWithEnv r.bag r.id) j).2 = some .retryTxn := by
    intro j hj
    obtain ⟨b', hb⟩ := chainSeqFrom_apply r.Handlers.HandleTxnErr
      (fun i => if i + 1 < M + 1 then some .mapResized else none) 0
      (bagWithEnv r.bag r.id) j
    rw [hb]
    have ha : (if 0 + j + 1 < M + 1 then some Err.mapResized else none) =
        some Err.mapResized := if_pos (by omega)
    simp only [ha]
    exact hconv b'
  have hterm0 : (chainSeqFrom r.Handlers.HandleTxnErr
      (fun i => if i + 1 < M + 1 then some .mapResized else none) 0
      (bagWithEnv r.bag r.id) M).2 = none := by
    obtain ⟨b', hb⟩ := chainSeqFrom_apply r.Handlers.HandleTxnErr
      (fun i => if i + 1 < M + 1 then some .mapResized else none) 0
      (bagWithEnv r.bag r.id) M
    rw [hb]
    have ha : (if 0 + M + 1 < M + 1 then some Err.mapResized else none) =
        (none : Option Err) := if_neg (by omega)
    simp only [ha]
    exact hpass b'
  have hterm : (chainSeqFrom r.Handlers.HandleTxnErr
      (fun i => if i + 1 < M + 1 then some .mapResized else none) 0
      (bagWithEnv r.bag r.id) M).2 ≠ some .retryTxn := by
    rw [hterm0]
    simp
  have hrun := runHandlerLoop_spec r.Handlers.HandleTxnErr
    (fun i => if i + 1 < M + 1 then some .mapResized else none) nseq false M 0
    (bagWithEnv r.bag r.id) fuel hret hterm (by omega)
  rw [hterm0] at hrun
  simpa [Env.Update, Env.runHandler] using hrun

/-- Concrete run discharging C4's hypotheses: with the baseline resize
handler, a body failing with `MapResized` twice and succeeding on the third
try makes `Update` succeed after exactly three invocations. -/
theorem C4_mapresized_retry_witness :
    Env.Update { id := 0, Handlers := [mapResizedHandler], bag := Background, noLock := true }
        (fun _ => true) (fun i => if i + 1 < 3 then some .mapResized else none) 3 =
      some (attemptTraces (fun _ => true) false 0 3, none, 3) :=
  C4_mapresized_retry
    { id := 0, Handlers := [mapResizedHandler], bag := Background, noLock := true }
    3 3 (fun _ => true) (by omega) (by omega) (fun b => rfl) (fun b => rfl)

/-- Claim C5: on an engine failure, `Open`, `SetFlags` and `UnsetFlags`
return the error and leave the wrapper (in particular its `noLock` flag)
unchanged; on engine success they update `noLock` by inspecting the `NoLock`
bit of the flags argument — `Open` and `SetFlags` set it when the bit is
present, `UnsetFlags` clears it when the bit is present — and change nothing
else. -/
theorem C5_flag_atomicity (r : Env) (flags : Nat) (e : Err) :
    r.Open flags (some e) = (r, some e) ∧
    r.SetFlags flags (some e) = (r, some e) ∧
    r.UnsetFlags flags (some e) = (r, some e) ∧
    r.Open flags none = ({ r with noLock := r.noLock || (flags &&& NoLock != 0) }, none) ∧
    r.SetFlags flags none = ({ r with noLock := r.noLock || (flags &&& NoLock != 0) }, none) ∧
    r.UnsetFlags flags none =
      ({ r with noLock := r.noLock && !(flags &&& NoLock != 0) }, none) := by
  refine ⟨rfl, rfl, rfl, ?_, ?_, ?_⟩ <;>
  · simp only [Env.Open, Env.SetFlags, Env.UnsetFlags]
    split <;> simp_all

/-- Claim C6: immediately after a successful `SetFlags` whose flags include
the `NoLock` bit, an update attempt takes the exclusive-lock path; after a
successful `UnsetFlags` whose flags include that bit, read attempts take the
shared-lock path again. -/
theorem C6_mode_transition (r r2 : Env) (flags flags2 : Nat) (e1 e2 : Option Err)
    (h1 : flags &&& NoLock ≠ 0) (h2 : flags2 &&& NoLock ≠ 0) :
    run (r.SetFlags flags none).1.noLock false e1 = ([.acqW, .body, .relW], e1) ∧
    (r.SetFlags flags none).1.noLock = true ∧
    run (r2.UnsetFlags flags2 none).1.noLock true e2 = ([.acqR, .body, .relR], e2) ∧
    (r2.UnsetFlags flags2 none).1.noLock = false := by
  have hb1 : (flags &&& NoLock != 0) = true := by simpa using h1
  have hb2 : (flags2 &&& NoLock != 0) = true := by simpa using h2
  simp [Env.SetFlags, Env.UnsetFlags, hb1, hb2, run]

/-- Concrete instantiation discharging C6's hypotheses, with `flags` exactly
the `NoLock` bit. -/
theorem C6_mode_transition_witness :
    run (Env.SetFlags { id := 0, Handlers := [], bag := Background, noLock := false }
        NoLock none).1.noLock false none = ([.acqW, .body, .relW], none) ∧
    (Env.SetFlags { id := 0, Handlers := [], bag := Background, noLock := false }
        NoLock none).1.noLock = true ∧
    run (Env.UnsetFlags { id := 0, Handlers := [], bag := Background, noLock := true }
        NoLock none).1.noLock true none = ([.acqR, .body, .relR], none) ∧
    (Env.UnsetFlags { id := 0, Handlers := [], bag := Background, noLock := true }
        NoLock none).1.noLock = false :=
  C6_mode_transition
    { id := 0, Handlers := [], bag := Background, noLock := false }
    { id := 0, Handlers := [], bag := Background, noLock := true }
    NoLock NoLock none none (by decide) (by decide)

/-- Claim C7: `NewEnv` queries the engine flags at construction: around an
already-open handle whose flags include the `NoLock` bit the wrapper starts
in lock-disabled mode with no `SetFlags` call; an EINVAL (not-yet-open)
failure of the query is swallowed and the wrapper defaults to
enabled-locking; any other query error is returned. -/
theorem C7_flag_detection (id flags : Nat) (c : HandlerChain) (e : Err)
    (hbit : flags &&& NoLock ≠ 0) (hne : e ≠ .errno EINVAL) :
    NewEnv id (flags, none) c =
      .ok { id := id, Handlers := c, bag := Background, noLock := true } ∧
    NewEnv id (0, some (.errno EINVAL)) c =
      .ok { id := id, Handlers := c, bag := Background, noLock := false } ∧
    NewEnv id (flags, some e) c = .error e := by
  have hb : (flags &&& NoLock != 0) = true := by simpa using hbit
  refine ⟨?_, ?_, ?_⟩
  · simp [NewEnv, IsErrnoSys, hb]
  · simp [NewEnv, IsErrnoSys]
  · simp [NewEnv, IsErrnoSys, hne]

/-- Concrete instantiation discharging C7's hypotheses, with the queried
flags exactly the `NoLock` bit and a non-EINVAL error. -/
theorem C7_flag_detection_witness :
    NewEnv 1 (NoLock, none) [] =
      .ok { id := 1, Handlers := [], bag := Background, noLock := true } ∧
    NewEnv 1 (0, some (.errno EINVAL)) [] =
      .ok { id := 1, Handlers := [], bag := Background, noLock := false } ∧
    NewEnv 1 (NoLock, some (.other 0)) [] = .error (.other 0) :=
  C7_flag_detection 1 NoLock [] (.other 0) (by decide) (by decide)

/-- Claim C8: `WithHandler h` returns a runner whose chain is the wrapper's
chain with `h` appended (`Append` builds a new list), bound to the unchanged
wrapper, so transaction calls made directly on the base wrapper keep using
the base chain and are unaffected by the runner's existence. -/
theorem C8_chain_isolation (r : Env) (hd : Handler) (nseq : Nat → Bool)
    (att : Nat → Option Err) (fuel flags : Nat) :
    (r.WithHandler hd).h = HandlerChain.Append r.Handlers hd ∧
    HandlerChain.Append r.Handlers hd = r.Handlers ++ [hd] ∧
    (r.WithHandler hd).env = r ∧
    (r.WithHandler hd).Update nseq att fuel =
      runHandlerLoop nseq false att (HandlerChain.HandleTxnErr (r.Handlers ++ [hd]))
        (bagWithEnv r.bag r.id) 0 fuel ∧
    Env.Update (r.WithHandler hd).env nseq att fuel = r.Update nseq att fuel ∧
    Env.View (r.WithHandler hd).env nseq att fuel = r.View nseq att fuel ∧
    Env.RunTxn (r.WithHandler hd).env flags nseq att fuel = r.RunTxn flags nseq att fuel ∧
    Env.UpdateLocked (r.WithHandler hd).env nseq att fuel =
      r.UpdateLocked nseq att fuel :=
  ⟨rfl, rfl, rfl, rfl, rfl, rfl, rfl, rfl⟩

/-- Claim C9: looking up the environment in a bag tagged with a wrapper
returns that wrapper, and every transaction operation hands the handler chain
the wrapper's background bag tagged with the wrapper itself under the private
key, from which `BagEnv` recovers the invoking wrapper. -/
theorem C9_bag_identity (b : Bag) (envId : Nat) (r : Env) (flags fuel : Nat)
    (nseq : Nat → Bool) (att : Nat → Option Err) :
    BagEnv (bagWithEnv b envId) = some envId ∧
    BagEnv (bagWithEnv r.bag r.id) = some r.id ∧
    r.RunTxn flags nseq att fuel =
      runHandlerLoop nseq (flags &&& Readonly != 0) att r.Handlers.HandleTxnErr
        (bagWithEnv r.bag r.id) 0 fuel ∧
    r.View nseq att fuel =
      runHandlerLoop nseq true att r.Handlers.HandleTxnErr
        (bagWithEnv r.bag r.id) 0 fuel ∧
    r.Update nseq att fuel =
      runHandlerLoop nseq false att r.Handlers.HandleTxnErr
        (bagWithEnv r.bag r.id) 0 fuel ∧
    r.UpdateLocked nseq att fuel =
      runHandlerLoop nseq false att r.Handlers.HandleTxnErr
        (bagWithEnv r.bag r.id) 0 fuel :=
  ⟨rfl, rfl, rfl, rfl, rfl, rfl⟩

/-- Claim C10: when the private environment key is absent from a bag, or
bound to a value that is not a wrapper reference, `BagEnv` returns nil. -/
theorem C10_bagenv_nil_safe (b : Bag)
    (h : b.Value (.envBagKey 0) = none ∨
         ∀ id, b.Value (.envBagKey 0) ≠ some (.envRef id)) :
    BagEnv b = none := by
  unfold BagEnv
  split
  · next id heq =>
      rcases h with h | h
      · rw [h] at heq
        cases heq
      · exact absurd heq (h id)
  · rfl

/-- Concrete instantiation discharging C10's hypothesis: a bag binding the
private key to a non-wrapper value yields nil. -/
theorem C10_bagenv_nil_safe_witness :
    BagEnv (BagWith Background (.envBagKey 0) (.other 5)) = none :=
  C10_bagenv_nil_safe (BagWith Background (.envBagKey 0) (.other 5))
    (Or.inr (fun id h => by simp [BagWith, Background, Bag.Value] at h))

end Lmdbsync
